import Mathlib

/-!
Shallow embedding of the job-orchestration and bounded-cache subsystem of the
Ai-Video-Animator repository.

Sources embedded:
* `src/src/App.tsx` — `updateAndSaveHistory` (bounded history store with
  quota-aware eviction), `handleAnimate` (orchestration caller: progress reset,
  history write on success, credential-reset handling).
* `src/App.tsx` (second half, the `geminiService`) — `animateImage`
  (submit / poll / progress estimate / download) and its catch-block error
  classifier.

JavaScript strings are modelled as Lean `String`; the string operations used by
the source (`toLowerCase`, `trim`, `startsWith`, `includes`) are implemented
below over `String.data` so that every definition reduces in the kernel.
`JSON.parse` is modelled by an executable recursive-descent JSON parser.
Blob payloads are opaque text; wall-clock times are rationals (milliseconds).
-/

/-! ### JavaScript string primitives -/

/-- `pat` occurs as a contiguous substring of `hay` (JS `String.includes`). -/
def listContains (hay pat : List Char) : Bool :=
  match hay with
  | [] => pat.isEmpty
  | _ :: t => pat.isPrefixOf hay || listContains t pat

/-- JS `s.includes(pat)`. -/
def strContains (s pat : String) : Bool := listContains s.data pat.data

/-- JS `s.toLowerCase()` (ASCII as used by the source's match table). -/
def jsToLower (s : String) : String := ⟨s.data.map Char.toLower⟩

/-- JS `s.trim()`: strip leading and trailing whitespace. -/
def jsTrim (s : String) : String :=
  ⟨((s.data.dropWhile Char.isWhitespace).reverse.dropWhile Char.isWhitespace).reverse⟩

/-- JS `s.startsWith(pat)`. -/
def strStartsWith (s pat : String) : Bool := pat.data.isPrefixOf s.data

/-! ### Bounded history store (`src/src/App.tsx`, `updateAndSaveHistory`)

The localStorage backend is injected as a write-outcome function
`write : List HistoryItem → Option JsError` (`none` = the `setItem` call
succeeded, `some e` = it threw `e`), and the persisted key
`ai-video-animator-history` as `Storage.slot` (the deserialized persisted
value; `none` = key absent / removed). -/

/-- `HistoryItem` of `src/src/App.tsx`. -/
structure HistoryItem where
  id : String
  imageBase64 : String
  videoBase64 : String
  videoMimeType : String
  generationTime : Nat
  modelUsed : String
deriving Repr, DecidableEq

/-- `HISTORY_LIMIT` of `src/src/App.tsx` line 35. -/
def HISTORY_LIMIT : Nat := 5

/-- A thrown JavaScript `Error` (`name`, `message`); the source only ever
inspects these two fields, and `message` is always a string there. -/
structure JsError where
  name : String
  message : String
deriving Repr, DecidableEq

/-- The quota test of `updateAndSaveHistory`:
`e.name === 'QuotaExceededError' || e.name === 'NS_ERROR_DOM_QUOTA_REACHED' ||
 (typeof e.message === 'string' && e.message.toLowerCase().includes('quota'))`.
`message` is a string in the model, so the `typeof` guard is always true. -/
def isQuotaError (e : JsError) : Bool :=
  e.name == "QuotaExceededError" ||
  e.name == "NS_ERROR_DOM_QUOTA_REACHED" ||
  strContains (jsToLower e.message) "quota"

/-- The persisted slot `ai-video-animator-history`: `none` models the key
being absent (after `removeItem`), `some l` the serialized list `l`. -/
structure Storage where
  slot : Option (List HistoryItem)
deriving Repr, DecidableEq

/-- The `while (historyToSave.length > 0)` loop of `updateAndSaveHistory`
(lines 95–123 of `src/src/App.tsx`): try `setItem`; on success return the
saved list and persist it; on a quota-classified error `pop()` the last
(oldest) element and retry; on any other error return `newHistory` with the
storage untouched; when the list is exhausted, `removeItem` and return the
empty list. -/
def trySaveHistory (write : List HistoryItem → Option JsError)
    (newHistory : List HistoryItem) :
    List HistoryItem → Storage → List HistoryItem × Storage
  | [], _ => ([], { slot := none })
  | a :: rest, st =>
    match write (a :: rest) with
    | none => (a :: rest, { slot := some (a :: rest) })
    | some e =>
      if isQuotaError e then
        trySaveHistory write newHistory ((a :: rest).dropLast) st
      else
        (newHistory, st)
termination_by l _ => l.length
decreasing_by simp [List.length_dropLast]

/-- `updateAndSaveHistory` of `src/src/App.tsx`: prepend the new item,
truncate to `HISTORY_LIMIT` (`slice(0, HISTORY_LIMIT)`), then run the
persistence loop. Returns the new in-memory history and the new storage. -/
def updateAndSaveHistory (write : List HistoryItem → Option JsError)
    (newItem : HistoryItem) (currentHistory : List HistoryItem)
    (st : Storage) : List HistoryItem × Storage :=
  let newHistory := (newItem :: currentHistory).take HISTORY_LIMIT
  trySaveHistory write newHistory newHistory st

/-- A storage layer that admits a write only when at most one entry is being
serialized, and reports quota exhaustion otherwise (the "fails until only one
entry's worth of data fits" simulation). -/
def writeFitsOne : List HistoryItem → Option JsError := fun l =>
  if l.length ≤ 1 then none
  else some { name := "QuotaExceededError", message := "Quota exceeded" }

/-- A concrete history item, used as input for concrete evaluations. -/
def sampleItem : HistoryItem :=
  { id := "1700000000000", imageBase64 := "aW1n", videoBase64 := "dmlk",
    videoMimeType := "video/mp4", generationTime := 95000,
    modelUsed := "veo-3.1-fast-generate-preview" }

/-- A second concrete history item with a distinct identity. -/
def sampleItem2 : HistoryItem :=
  { id := "1700000000001", imageBase64 := "aW1nMg", videoBase64 := "dmlkMg",
    videoMimeType := "video/mp4", generationTime := 102000,
    modelUsed := "veo-3.1-fast-generate-preview" }

/-- A concrete full (five-entry) history, newest first. -/
def fullHistory : List HistoryItem :=
  [{ sampleItem with id := "5" }, { sampleItem with id := "4" },
   { sampleItem with id := "3" }, { sampleItem with id := "2" },
   { sampleItem with id := "1" }]

/-! ### Progress estimator (`src/App.tsx`, `animateImage` lines 195–198)

`const simulatedProgress = Math.min(95, 5 + (90 * (elapsedTime / EXPECTED_ANIMATION_DURATION_MS)));`
generalized over the expected-duration calibration constant as in the spec's
contract `estimate(elapsedMs, expectedDurationMs)`. Times are rationals. -/

/-- `EXPECTED_ANIMATION_DURATION_MS` of `src/App.tsx` line 155. -/
def EXPECTED_ANIMATION_DURATION_MS : ℚ := 120000

/-- `POLLING_INTERVAL_MS` of `src/App.tsx` line 153. -/
def POLLING_INTERVAL_MS : ℚ := 10000

/-- The estimator formula `min(95, 5 + 90 * elapsedMs/expectedDurationMs)`. -/
def estimate (elapsedMs expectedDurationMs : ℚ) : ℚ :=
  min 95 (5 + 90 * (elapsedMs / expectedDurationMs))

/-- The source's instantiation at the fixed calibration constant. -/
def simulatedProgress (elapsedTime : ℚ) : ℚ :=
  estimate elapsedTime EXPECTED_ANIMATION_DURATION_MS

/-! ### A model of `JSON.parse` (used by the classifier's
`if (originalMessage.trim().startsWith('{')) { try { JSON.parse(...) } ... }`)

An executable recursive-descent parser over the character list; `none` models
`JSON.parse` throwing a `SyntaxError` (which the source swallows). Number
literals are kept as their character text — the classifier only ever needs
their truthiness and display form. -/

/-- JSON values. Object fields are kept in source order. -/
inductive Json where
  | null
  | bool (b : Bool)
  | num (lit : List Char)
  | str (s : List Char)
  | arr (elems : List Json)
  | obj (fields : List (List Char × Json))
deriving Repr, Inhabited

/-- JSON insignificant whitespace. -/
def isJsonWs (c : Char) : Bool := c = ' ' || c = '\t' || c = '\n' || c = '\r'

/-- Skip insignificant whitespace. -/
def skipWs (cs : List Char) : List Char := cs.dropWhile isJsonWs

/-- Value of a hexadecimal digit. -/
def hexVal (c : Char) : Option Nat :=
  if '0' ≤ c ∧ c ≤ '9' then some (c.toNat - '0'.toNat)
  else if 'a' ≤ c ∧ c ≤ 'f' then some (c.toNat - 'a'.toNat + 10)
  else if 'A' ≤ c ∧ c ≤ 'F' then some (c.toNat - 'A'.toNat + 10)
  else none

/-- Single-character JSON string escapes. -/
def escapeChar : Char → Option Char
  | '"' => some '"'
  | '\\' => some '\\'
  | '/' => some '/'
  | 'b' => some (Char.ofNat 8)
  | 'f' => some (Char.ofNat 12)
  | 'n' => some '\n'
  | 'r' => some '\r'
  | 't' => some '\t'
  | _ => none

/-- Body of a JSON string after the opening quote: the decoded characters and
the remaining input after the closing quote. -/
def parseStringBody : List Char → Option (List Char × List Char)
  | [] => none
  | '"' :: rest => some ([], rest)
  | '\\' :: 'u' :: a :: b :: c :: d :: rest =>
    match hexVal a, hexVal b, hexVal c, hexVal d with
    | some x1, some x2, some x3, some x4 =>
      (parseStringBody rest).map fun p =>
        (Char.ofNat (((x1 * 16 + x2) * 16 + x3) * 16 + x4) :: p.1, p.2)
    | _, _, _, _ => none
  | '\\' :: e :: rest =>
    match escapeChar e with
    | some ch => (parseStringBody rest).map fun p => (ch :: p.1, p.2)
    | none => none
  | c :: rest =>
    if c = '\\' then none
    else (parseStringBody rest).map fun p => (c :: p.1, p.2)

/-- One or more decimal digits. -/
def parseDigits (cs : List Char) : Option (List Char × List Char) :=
  let ds := cs.takeWhile Char.isDigit
  if ds.isEmpty then none else some (ds, cs.drop ds.length)

/-- Optional fractional part `.digits`. -/
def parseFrac (cs : List Char) : Option (List Char × List Char) :=
  match cs with
  | '.' :: r => (parseDigits r).map fun p => ('.' :: p.1, p.2)
  | _ => some ([], cs)

/-- Optional exponent part `(e|E)(+|-)?digits`. -/
def parseExp (cs : List Char) : Option (List Char × List Char) :=
  match cs with
  | e :: r =>
    if e = 'e' || e = 'E' then
      match r with
      | s :: r2 =>
        if s = '+' || s = '-' then
          (parseDigits r2).map fun p => (e :: s :: p.1, p.2)
        else
          (parseDigits r).map fun p => (e :: p.1, p.2)
      | [] => none
    else some ([], cs)
  | [] => some ([], cs)

/-- A JSON number literal, returned as its character text. -/
def parseNumber (cs : List Char) : Option (List Char × List Char) := do
  let (neg, cs1) :=
    match cs with
    | '-' :: r => ([('-' : Char)], r)
    | _ => (([] : List Char), cs)
  let (ip, cs2) ← parseDigits cs1
  let (fp, cs3) ← parseFrac cs2
  let (ep, cs4) ← parseExp cs3
  pure (neg ++ ip ++ fp ++ ep, cs4)

mutual

/-- A JSON value; `fuel` bounds the nesting/iteration depth. -/
def parseValue : Nat → List Char → Option (Json × List Char)
  | 0, _ => none
  | fuel + 1, cs =>
    match skipWs cs with
    | 'n' :: 'u' :: 'l' :: 'l' :: rest => some (Json.null, rest)
    | 't' :: 'r' :: 'u' :: 'e' :: rest => some (Json.bool true, rest)
    | 'f' :: 'a' :: 'l' :: 's' :: 'e' :: rest => some (Json.bool false, rest)
    | '"' :: rest => (parseStringBody rest).map fun p => (Json.str p.1, p.2)
    | '{' :: rest =>
      match skipWs rest with
      | '}' :: rest2 => some (Json.obj [], rest2)
      | cs2 => (parseMembers fuel cs2).map fun p => (Json.obj p.1, p.2)
    | '[' :: rest =>
      match skipWs rest with
      | ']' :: rest2 => some (Json.arr [], rest2)
      | cs2 => (parseElements fuel cs2).map fun p => (Json.arr p.1, p.2)
    | cs1 => (parseNumber cs1).map fun p => (Json.num p.1, p.2)

/-- Members of a JSON object, up to and including the closing brace. -/
def parseMembers : Nat → List Char → Option (List (List Char × Json) × List Char)
  | 0, _ => none
  | fuel + 1, cs =>
    match skipWs cs with
    | '"' :: rest =>
      match parseStringBody rest with
      | none => none
      | some (key, rest2) =>
        match skipWs rest2 with
        | ':' :: rest3 =>
          match parseValue fuel rest3 with
          | none => none
          | some (v, rest4) =>
            match skipWs rest4 with
            | ',' :: rest5 => (parseMembers fuel rest5).map fun p => ((key, v) :: p.1, p.2)
            | '}' :: rest5 => some ([(key, v)], rest5)
            | _ => none
        | _ => none
    | _ => none

/-- Elements of a JSON array, up to and including the closing bracket. -/
def parseElements : Nat → List Char → Option (List Json × List Char)
  | 0, _ => none
  | fuel + 1, cs =>
    match parseValue fuel cs with
    | none => none
    | some (v, rest) =>
      match skipWs rest with
      | ',' :: rest2 => (parseElements fuel rest2).map fun p => (v :: p.1, p.2)
      | ']' :: rest2 => some ([v], rest2)
      | _ => none

end

/-- `JSON.parse`: parse the whole string (trailing whitespace allowed);
`none` models the thrown `SyntaxError`. The fuel `length + 1` is sufficient
because every recursive descent consumes at least one character. -/
def jsonParse (s : String) : Option Json :=
  match parseValue (s.data.length + 1) s.data with
  | some (v, rest) => if (skipWs rest).isEmpty then some v else none
  | none => none

/-- JS truthiness of a parsed JSON value (`undefined` is represented by
`Option.none` at use sites). A number is falsy exactly when its mantissa has
no nonzero digit. -/
def jsTruthy : Json → Bool
  | Json.null => false
  | Json.bool b => b
  | Json.num lit =>
    (lit.takeWhile fun c => !(c = 'e' || c = 'E')).any fun c => c.isDigit && c != '0'
  | Json.str s => !s.isEmpty
  | Json.arr _ => true
  | Json.obj _ => true

mutual

/-- The text a JSON value contributes to a JS template literal
(string → itself, number → its literal, array → elements joined with commas,
object → `[object Object]`). -/
def jsDisplay : Json → List Char
  | Json.null => "null".data
  | Json.bool true => "true".data
  | Json.bool false => "false".data
  | Json.num lit => lit
  | Json.str s => s
  | Json.arr xs => jsDisplayList xs
  | Json.obj _ => "[object Object]".data

/-- Array elements joined with `,` (JS `Array.prototype.toString`). -/
def jsDisplayList : List Json → List Char
  | [] => []
  | [x] => jsDisplay x
  | x :: y :: xs => jsDisplay x ++ ',' :: jsDisplayList (y :: xs)

end

/-- JS property read `v[key]` on a parsed JSON value: defined only on objects
(`undefined`, i.e. `none`, otherwise); with duplicate keys the last wins, as
in `JSON.parse`. -/
def jsGet (v : Json) (key : List Char) : Option Json :=
  match v with
  | Json.obj fields => (fields.reverse.find? fun p => p.1 == key).map Prod.snd
  | _ => none

/-! ### Error classifier (`src/App.tsx`, `animateImage` catch block,
lines 218–276) -/

/-- The caught JS value: either an `Error` instance or any other value
(`error instanceof Error` fails on the latter). -/
inductive JsValue where
  | error (e : JsError)
  | other (desc : String)
deriving Repr, DecidableEq

/-- The classifier's fallback message (also used when the caught value is not
an `Error`). -/
def DEFAULT_ERROR_MESSAGE : String :=
  "An unexpected error occurred during the animation process. Please try again."

/-- Stable message for unreadable/unsupported input files. -/
def INPUT_ERROR_MESSAGE : String :=
  "The uploaded file appears to be corrupted or is in an unsupported format. Please try a different image."

/-- Stable message for invalid credentials. -/
def AUTH_ERROR_MESSAGE : String :=
  "Authentication with the AI service failed. This is a configuration issue."

/-- Stable message for rate/usage-limit errors. -/
def QUOTA_ERROR_MESSAGE : String :=
  "You have exceeded your API quota. Please check your plan and billing details, or try again later."

/-- Stable message for deadline/unavailability errors. -/
def TRANSIENT_ERROR_MESSAGE : String :=
  "The request timed out as the service is temporarily unavailable. Please try again later."

/-- Stable message for a failed artifact download. -/
def DOWNLOAD_ERROR_MESSAGE : String :=
  "Failed to retrieve the final video, which may be due to a network issue. Please check your connection and try again."

/-- Stable message for a completed job with no download link. -/
def NO_RESULT_ERROR_MESSAGE : String :=
  "The AI was unable to create an animation from this specific image. Please try a different one."

/-- Lines 227–241: if the message starts (after trimming) with a brace, try
`JSON.parse`; on success take `parsedJson.error || parsedJson`, and if that
has a truthy `message` use `` `${errorData.message} ${errorData.status || ''}` ``
as the effective text; in every other case (including a parse failure) keep
the original message. -/
def effectiveMessageOf (originalMessage : String) : String :=
  if strStartsWith (jsTrim originalMessage) "\x7b" then
    match jsonParse originalMessage with
    | none => originalMessage
    | some parsedJson =>
      let errorData :=
        match jsGet parsedJson "error".data with
        | some v => if jsTruthy v then v else parsedJson
        | none => parsedJson
      match jsGet errorData "message".data with
      | some m =>
        if jsTruthy m then
          let statusPart :=
            match jsGet errorData "status".data with
            | some s => if jsTruthy s then jsDisplay s else []
            | none => []
          ⟨jsDisplay m ++ ' ' :: statusPart⟩
        else originalMessage
      | none => originalMessage
  else originalMessage

/-- The catch block of `animateImage` (`src/App.tsx` lines 218–276):
either re-raises the caught error unchanged (`Except.error`, the
credential-reset signal) or converts it into the thrown
`new Error(userFriendlyMessage)` (`Except.ok` with that message). -/
def classify (v : JsValue) : Except JsError String :=
  match v with
  | JsValue.other _ => Except.ok DEFAULT_ERROR_MESSAGE
  | JsValue.error err =>
    let originalMessage := err.message
    let effectiveMessage := effectiveMessageOf originalMessage
    let lowerCaseMessage := jsToLower effectiveMessage
    if strContains lowerCaseMessage "requested entity was not found" then
      Except.error err
    else if strContains lowerCaseMessage "failed to read file" ||
        strContains lowerCaseMessage "could not read image file" then
      Except.ok INPUT_ERROR_MESSAGE
    else if strContains lowerCaseMessage "api key not valid" then
      Except.ok AUTH_ERROR_MESSAGE
    else if strContains lowerCaseMessage "rate limit" ||
        strContains lowerCaseMessage "resource_exhausted" ||
        strContains lowerCaseMessage "quota" then
      Except.ok QUOTA_ERROR_MESSAGE
    else if strContains lowerCaseMessage "deadline exceeded" ||
        strContains lowerCaseMessage "503 service unavailable" then
      Except.ok TRANSIENT_ERROR_MESSAGE
    else if strStartsWith originalMessage "Download failed with status" then
      Except.ok DOWNLOAD_ERROR_MESSAGE
    else if strContains lowerCaseMessage "no download link was returned" then
      Except.ok NO_RESULT_ERROR_MESSAGE
    else
      Except.ok ("A technical issue occurred: " ++ originalMessage)

deriving instance DecidableEq for Except

/-- The exact error payload of the credential-reset scenario:
`{"error":{"message":"Requested entity was not found","status":"NOT_FOUND"}}`. -/
def NOT_FOUND_JSON : String :=
  "\x7b\"error\":\x7b\"message\":\"Requested entity was not found\",\"status\":\"NOT_FOUND\"\x7d\x7d"

/-- An `Error` carrying `NOT_FOUND_JSON` as its message. -/
def notFoundError : JsError := { name := "Error", message := NOT_FOUND_JSON }

/-! ### Orchestration (`src/App.tsx`, `animateImage` lines 158–216, and
`src/src/App.tsx`, `handleAnimate` lines 138–187)

The remote collaborators are injected through an environment `Env`:
the file reads (`fileToBase64` / `getImageDimensions`), the submission
(`ai.models.generateVideos`, keyed by the aspect-ratio hint computed from the
image dimensions — the image payload, prompt and model configuration are
absorbed into the collaborator function), the successive
`ai.operations.getVideosOperation` results each tagged with the elapsed
wall-clock time (ms) at which it returns, and the artifact `fetch`.
Blob payloads are opaque text. -/

/-- A fetched `Blob` (`data` opaque, `type` its MIME type). -/
structure Blob where
  data : String
  type : String
deriving Repr, DecidableEq

/-- The operation as the poll loop reads it: the `done` flag and
`operation.response?.generatedVideos?.[0]?.video?.uri`
(`none` models any absent link along that optional chain). -/
structure Operation where
  done : Bool
  uri : Option String
deriving Repr, DecidableEq

/-- A `fetch` response: `ok`, `status`, `text()` and `blob()`. -/
structure HttpResponse where
  ok : Bool
  status : Nat
  bodyText : String
  blob : Blob
deriving Repr, DecidableEq

/-- Intrinsic image dimensions from `getImageDimensions`. -/
structure Dimensions where
  width : ℚ
  height : ℚ
deriving Repr, DecidableEq

/-- The environment of one orchestration run. -/
structure Env where
  apiKey : String
  modelName : String
  fileRead : Except JsError (String × Dimensions)
  generateVideos : String → Except JsError Operation
  polls : List (ℚ × Except JsError Operation)
  download : String → HttpResponse

/-- Outcome of the `while (!operation.done)` loop: the terminal operation, a
thrown poll error, or `hang` when the environment supplies fewer poll results
than the loop would consume (the real loop would still be polling). -/
inductive PollOutcome where
  | finished (op : Operation)
  | failed (e : JsError)
  | hang
deriving Repr, DecidableEq

/-- Everything observable about one `animateImage` run: its result (the
returned blob or the thrown error), every value passed to `onProgress` in
order, and every URL passed to `fetch`. -/
structure ServiceTrace where
  result : Except JsError Blob
  progress : List ℚ
  downloads : List String
deriving Repr, DecidableEq

/-- The poll loop (lines 190–199): while the operation is not done, sleep,
re-poll, then report the simulated progress for the elapsed time at which the
poll returned — also for the poll that comes back `done`. A poll rejection
aborts the loop without a progress call. Returns the progress calls made by
the loop and how it ended. -/
def pollLoop (op : Operation) :
    List (ℚ × Except JsError Operation) → List ℚ × PollOutcome :=
  fun polls =>
    if op.done then ([], PollOutcome.finished op)
    else
      match polls with
      | [] => ([], PollOutcome.hang)
      | (_, Except.error e) :: _ => ([], PollOutcome.failed e)
      | (t, Except.ok op2) :: rest =>
        let r := pollLoop op2 rest
        (simulatedProgress t :: r.1, r.2)

/-- The `try` block of `animateImage` (lines 162–216): initial
`onProgress(5)`, file reads, aspect-ratio choice
(`width > height ? '16:9' : '9:16'`), submission, poll loop,
`onProgress(100)`, link extraction, download. `none` models a run whose
environment ran out of poll results while the loop was still polling. -/
def runAnimate (env : Env) : Option ServiceTrace :=
  match env.fileRead with
  | Except.error e =>
    some { result := Except.error e, progress := [5], downloads := [] }
  | Except.ok (_, dimensions) =>
    let aspectHint := if dimensions.width > dimensions.height then "16:9" else "9:16"
    match env.generateVideos aspectHint with
    | Except.error e =>
      some { result := Except.error e, progress := [5], downloads := [] }
    | Except.ok operation =>
      match pollLoop operation env.polls with
      | (_, PollOutcome.hang) => none
      | (qs, PollOutcome.failed e) =>
        some { result := Except.error e, progress := 5 :: qs, downloads := [] }
      | (qs, PollOutcome.finished finalOp) =>
        let progress := 5 :: qs ++ [100]
        match finalOp.uri with
        | none =>
          some { result := Except.error
                   ({ name := "Error",
                      message := "Video generation succeeded, but no download link was returned." } : JsError),
                 progress := progress, downloads := [] }
        | some downloadLink =>
          let url := downloadLink ++ "&key=" ++ env.apiKey
          let response := env.download url
          if response.ok then
            some { result := Except.ok response.blob, progress := progress, downloads := [url] }
          else
            some { result := Except.error
                     ({ name := "Error",
                        message := "Download failed with status " ++ toString response.status
                          ++ ": " ++ response.bodyText } : JsError),
                   progress := progress, downloads := [url] }

/-- `animateImage` as the caller sees it: the `try` block composed with the
catch-block classifier — a classified failure is thrown as
`new Error(userFriendlyMessage)`, the credential-reset case re-throws the
original error. -/
def animateImage (env : Env) : Option ServiceTrace :=
  (runAnimate env).map fun tr =>
    match tr.result with
    | Except.ok _ => tr
    | Except.error e =>
      match classify (JsValue.error e) with
      | Except.error orig => { tr with result := Except.error orig }
      | Except.ok m => { tr with result := Except.error ({ name := "Error", message := m } : JsError) }

/-- `blobToBase64` of `src/src/utils/fileUtils.ts`, with blob payloads opaque
text: the re-encoding is modelled as the payload itself. -/
def blobToBase64 (b : Blob) : String := b.data

/-- The error message `handleAnimate` displays on the credential-reset
signal (`src/src/App.tsx` line 177). -/
def API_KEY_INVALID_MESSAGE : String :=
  "Your API key appears to be invalid. Please select a valid project API key to continue."

/-- The raw "no download link" error of `animateImage` line 206. -/
def noLinkError : JsError :=
  { name := "Error",
    message := "Video generation succeeded, but no download link was returned." }

/-- `AppState` of `src/src/App.tsx`. -/
inductive AppState where
  | IDLE
  | ANIMATING
  | SUCCESS
  | ERROR
deriving Repr, DecidableEq

/-- The slice of the App component's state that `handleAnimate` mutates and
the claims observe (presentation-only state — object URLs, loading messages —
is omitted). -/
structure AppView where
  history : List HistoryItem
  storage : Storage
  error : Option String
  appState : AppState
  apiKeyReady : Bool
deriving Repr, DecidableEq

/-- Result of one `handleAnimate` run: the final state slice and every value
passed to `setProgress` during the run, in order. -/
structure HandleResult where
  view : AppView
  progressTrace : List ℚ
deriving Repr, DecidableEq

/-- `handleAnimate` of `src/src/App.tsx` (lines 138–187): `setProgress(0)` at
run start, `animateImage` with `setProgress` as the progress sink, on success
build the `HistoryItem` (id from `Date.now()`, duration from the measured
wall-clock time — both environment-supplied here — and the remote-reported
model identifier) and save it through `updateAndSaveHistory`; on an error
whose message contains the credential-reset text, drop to the key-selection
state; on any other error show the message; in all cases `setProgress(0)` in
the `finally`. `none` models a run still in flight. -/
def handleAnimate (write : List HistoryItem → Option JsError) (env : Env)
    (nowId : String) (durationMs : Nat) (v : AppView) : Option HandleResult :=
  (animateImage env).map fun tr =>
    match tr.result with
    | Except.ok blob =>
      let imageBase64 :=
        match env.fileRead with
        | Except.ok (b64, _) => b64
        | Except.error _ => ""
      let newItem : HistoryItem :=
        { id := nowId, imageBase64 := imageBase64, videoBase64 := blobToBase64 blob,
          videoMimeType := blob.type, generationTime := durationMs,
          modelUsed := env.modelName }
      let hs := updateAndSaveHistory write newItem v.history v.storage
      { view := { history := hs.1, storage := hs.2, error := none,
                  appState := AppState.SUCCESS, apiKeyReady := v.apiKeyReady },
        progressTrace := 0 :: tr.progress ++ [0] }
    | Except.error err =>
      let errorMessage := err.message
      if strContains (jsToLower errorMessage) "requested entity was not found" then
        { view := { history := v.history, storage := v.storage,
                    error := some API_KEY_INVALID_MESSAGE,
                    appState := AppState.IDLE, apiKeyReady := false },
          progressTrace := 0 :: tr.progress ++ [0] }
      else
        { view := { history := v.history, storage := v.storage,
                    error := some errorMessage,
                    appState := AppState.ERROR, apiKeyReady := v.apiKeyReady },
          progressTrace := 0 :: tr.progress ++ [0] }

/-- A concrete returned blob. -/
def sampleBlob : Blob := { data := "vid-bytes", type := "video/mp4" }

/-- A pending operation (`done: false`). -/
def pendingOp : Operation := { done := false, uri := none }

/-- A completed operation carrying a result locator. -/
def doneOp (uri : String) : Operation := { done := true, uri := some uri }

/-- A download layer that always succeeds. -/
def okDownload : String → HttpResponse := fun _ =>
  { ok := true, status := 200, bodyText := "", blob := sampleBlob }

/-- A download layer that always responds 500. -/
def failDownload500 : String → HttpResponse := fun _ =>
  { ok := false, status := 500, bodyText := "server error",
    blob := { data := "", type := "" } }

/-- Concrete run environment: submission pending, three `done: false` polls
(at 10s, 20s, 30s) then a `done: true` poll (at 40s) with a locator, download
succeeding. -/
def env3 : Env :=
  { apiKey := "KEY", modelName := "veo-3.1-fast-generate-preview",
    fileRead := Except.ok ("img64", { width := 1920, height := 1080 }),
    generateVideos := fun _ => Except.ok pendingOp,
    polls := [(10000, Except.ok pendingOp), (20000, Except.ok pendingOp),
              (30000, Except.ok pendingOp),
              (40000, Except.ok (doneOp "https://video.example/x"))],
    download := okDownload }

/-- Concrete run environment: one completing poll, then a 500 download. -/
def env500 : Env :=
  { env3 with
    polls := [(10000, Except.ok (doneOp "https://video.example/x"))],
    download := failDownload500 }

/-- Concrete run environment: one completing poll at 10s, download ok. -/
def env8 : Env :=
  { env3 with polls := [(10000, Except.ok (doneOp "https://video.example/x"))] }

/-- The app state slice before a run. -/
def initialView : AppView :=
  { history := [], storage := { slot := none }, error := none,
    appState := AppState.IDLE, apiKeyReady := true }

/-- The service trace of the `env8` run. -/
def trace8 : ServiceTrace :=
  { result := Except.ok sampleBlob,
    progress := [5, simulatedProgress 10000, 100],
    downloads := ["https://video.example/x&key=KEY"] }

/-! ### Theorems -/

theorem trySaveHistory_write_none (write : List HistoryItem → Option JsError)
    (nh : List HistoryItem) (a : HistoryItem) (rest : List HistoryItem)
    (st : Storage) (h : write (a :: rest) = none) :
    trySaveHistory write nh (a :: rest) st = (a :: rest, { slot := some (a :: rest) }) := by
  rw [trySaveHistory, h]

theorem trySaveHistory_fitsOne (nh : List HistoryItem) :
    ∀ (n : Nat) (l : List HistoryItem) (a : HistoryItem) (st : Storage),
      l.length = n →
      trySaveHistory writeFitsOne nh (a :: l) st = ([a], { slot := some [a] }) := by
  intro n
  induction n with
  | zero =>
    intro l a st h
    obtain rfl := List.length_eq_zero.mp h
    rw [trySaveHistory]
    norm_num [writeFitsOne]
  | succ n ih =>
    intro l a st h
    match l with
    | b :: t =>
      have hw : writeFitsOne (a :: b :: t) =
          some { name := "QuotaExceededError", message := "Quota exceeded" } := by
        simp [writeFitsOne]
      have hq : isQuotaError { name := "QuotaExceededError", message := "Quota exceeded" } = true := by
        decide
      rw [trySaveHistory, hw]
      simp only [hq, if_true]
      have hdl : (a :: b :: t).dropLast = a :: (b :: t).dropLast := by
        simp [List.dropLast]
      rw [hdl]
      exact ih ((b :: t).dropLast) a st (by simp at h ⊢; omega)

theorem trySaveHistory_all_quota (write : List HistoryItem → Option JsError)
    (hw : ∀ l : List HistoryItem, l ≠ [] → ∃ er, write l = some er ∧ isQuotaError er = true) :
    ∀ (n : Nat) (l nh : List HistoryItem) (st : Storage),
      l.length = n → trySaveHistory write nh l st = ([], { slot := none }) := by
  intro n
  induction n with
  | zero =>
    intro l nh st h
    obtain rfl := List.length_eq_zero.mp h
    rw [trySaveHistory]
  | succ n ih =>
    intro l nh st h
    match l with
    | a :: t =>
      obtain ⟨er, her, hq⟩ := hw (a :: t) (List.cons_ne_nil a t)
      rw [trySaveHistory, her]
      simp only [hq, if_true]
      exact ih ((a :: t).dropLast) nh st (by simp at h ⊢; omega)

/-- C2: after a successful insert the store holds at most `HISTORY_LIMIT = 5`
entries, in newest-first order `(e :: hist).take 5`; inserting at capacity
leaves exactly 5 entries, the new one in front and the previously-oldest
dropped; inserting into an empty store leaves length 1. -/
theorem insert_capacity_invariant
    (write : List HistoryItem → Option JsError) (e : HistoryItem)
    (hist : List HistoryItem) (st : Storage)
    (hsucc : write ((e :: hist).take HISTORY_LIMIT) = none) :
    (updateAndSaveHistory write e hist st).1.length ≤ HISTORY_LIMIT ∧
    (updateAndSaveHistory write e hist st).1 = (e :: hist).take HISTORY_LIMIT ∧
    (hist.length = HISTORY_LIMIT →
      (updateAndSaveHistory write e hist st).1.length = HISTORY_LIMIT ∧
      (updateAndSaveHistory write e hist st).1 = e :: hist.dropLast) ∧
    (hist = [] → (updateAndSaveHistory write e hist st).1 = [e]) := by
  have hcons : (e :: hist).take HISTORY_LIMIT = e :: hist.take (HISTORY_LIMIT - 1) := by
    simp [HISTORY_LIMIT]
  have hmain : updateAndSaveHistory write e hist st =
      ((e :: hist).take HISTORY_LIMIT, { slot := some ((e :: hist).take HISTORY_LIMIT) }) := by
    unfold updateAndSaveHistory
    rw [hcons] at hsucc ⊢
    exact trySaveHistory_write_none write _ e _ st hsucc
  refine ⟨?_, ?_, ?_, ?_⟩
  · rw [hmain]; simp
  · rw [hmain]
  · intro hfull
    constructor
    · rw [hmain]
      simp [List.length_take, hfull, HISTORY_LIMIT]
    · rw [hmain, hcons]
      have : hist.take (HISTORY_LIMIT - 1) = hist.dropLast := by
        rw [List.dropLast_eq_take, hfull]
      rw [this]
  · intro hnil
    subst hnil
    rw [hmain]
    simp [HISTORY_LIMIT]

/-- Witness for C2 at concrete inputs: an always-succeeding storage layer,
a full five-entry store and an empty store. -/
theorem insert_capacity_invariant_witness :
    (updateAndSaveHistory (fun _ => none) sampleItem fullHistory { slot := none }).1.length
        = HISTORY_LIMIT ∧
    (updateAndSaveHistory (fun _ => none) sampleItem fullHistory { slot := none }).1
        = sampleItem :: fullHistory.dropLast ∧
    (updateAndSaveHistory (fun _ => none) sampleItem2 [] { slot := none }).1 = [sampleItem2] := by
  have h1 := insert_capacity_invariant (fun _ => none) sampleItem fullHistory
    { slot := none } rfl
  have h2 := insert_capacity_invariant (fun _ => none) sampleItem2 []
    { slot := none } rfl
  exact ⟨(h1.2.2.1 (by decide)).1, (h1.2.2.1 (by decide)).2, h2.2.2.2 rfl⟩

/-- C1: against a storage layer that quota-fails until only one entry's worth
of data fits (`writeFitsOne`), inserting into a full store terminates with
exactly one retained entry — the newest — both in memory and persisted. -/
theorem insert_quota_eviction (e : HistoryItem) (hist : List HistoryItem)
    (st : Storage) (_hfull : hist.length = HISTORY_LIMIT) :
    updateAndSaveHistory writeFitsOne e hist st = ([e], { slot := some [e] }) := by
  unfold updateAndSaveHistory
  have hcons : (e :: hist).take HISTORY_LIMIT = e :: hist.take (HISTORY_LIMIT - 1) := by
    simp [HISTORY_LIMIT]
  rw [hcons]
  exact trySaveHistory_fitsOne _ (hist.take (HISTORY_LIMIT - 1)).length _ e st rfl

/-- Witness for C1 at a concrete full store. -/
theorem insert_quota_eviction_witness :
    updateAndSaveHistory writeFitsOne sampleItem fullHistory { slot := none }
      = ([sampleItem], { slot := some [sampleItem] }) :=
  insert_quota_eviction sampleItem fullHistory { slot := none } (by decide)

/-- C10: when every persistence attempt fails with a quota-classified error,
`insert` ends with the in-memory history empty and the persisted key removed —
the newest entry is dropped from memory too. -/
theorem insert_quota_exhaustion_empties
    (write : List HistoryItem → Option JsError)
    (hw : ∀ l : List HistoryItem, l ≠ [] → ∃ er, write l = some er ∧ isQuotaError er = true)
    (e : HistoryItem) (hist : List HistoryItem) (st : Storage) :
    updateAndSaveHistory write e hist st = ([], { slot := none }) := by
  unfold updateAndSaveHistory
  exact trySaveHistory_all_quota write hw ((e :: hist).take HISTORY_LIMIT).length _ _ st rfl

/-- Witness for C10: a storage layer that always throws `QuotaExceededError`. -/
theorem insert_quota_exhaustion_empties_witness :
    updateAndSaveHistory
      (fun _ => some { name := "QuotaExceededError", message := "Quota exceeded" })
      sampleItem fullHistory { slot := some fullHistory } = ([], { slot := none }) :=
  insert_quota_exhaustion_empties _
    (fun _ _ => ⟨_, rfl, by decide⟩) sampleItem fullHistory { slot := some fullHistory }

theorem estimate_le_95 (t E : ℚ) : estimate t E ≤ 95 := min_le_left _ _

theorem estimate_ge_5 (t E : ℚ) (ht : 0 ≤ t) (hE : 0 < E) : 5 ≤ estimate t E := by
  unfold estimate
  have : (0:ℚ) ≤ 90 * (t / E) := by positivity
  have h95 : (5:ℚ) ≤ 95 := by norm_num
  exact le_min h95 (by linarith)

theorem estimate_mono (t t' E : ℚ) (hE : 0 < E) (hle : t ≤ t') :
    estimate t E ≤ estimate t' E := by
  unfold estimate
  gcongr

/-- C4: for `0 ≤ t < expectedDuration` the estimate is non-decreasing in `t`
and lies within `[5, 95]`, and it never produces `100` (the final `100` comes
only from the explicit `onProgress(100)` call after the poll loop). -/
theorem estimate_bounds_mono (E t t' : ℚ)
    (ht0 : 0 ≤ t) (htE : t < E) (_ht0' : 0 ≤ t') (_htE' : t' < E) (hle : t ≤ t') :
    (5 ≤ estimate t E ∧ estimate t E ≤ 95) ∧
    estimate t E ≤ estimate t' E ∧
    estimate t E ≠ 100 := by
  have hE : 0 < E := lt_of_le_of_lt ht0 htE
  refine ⟨⟨estimate_ge_5 t E ht0 hE, estimate_le_95 t E⟩, estimate_mono t t' E hE hle, ?_⟩
  have h := estimate_le_95 t E
  intro hcontra
  rw [hcontra] at h
  norm_num at h

/-- Witness for C4 at concrete elapsed times 30s ≤ 60s within a 120s
expected duration. -/
theorem estimate_bounds_mono_witness :
    (5 ≤ estimate 30000 120000 ∧ estimate 30000 120000 ≤ 95) ∧
    estimate 30000 120000 ≤ estimate 60000 120000 ∧
    estimate 30000 120000 ≠ 100 :=
  estimate_bounds_mono 120000 30000 60000 (by norm_num) (by norm_num)
    (by norm_num) (by norm_num) (by norm_num)

/-- C5: classifying an error whose textual payload is
`{"error":{"message":"Requested entity was not found","status":"NOT_FOUND"}}`
re-raises the original error object unchanged (the credential-reset signal)
instead of converting it to a stable display string. -/
theorem classify_credential_reset :
    classify (JsValue.error notFoundError) = Except.error notFoundError := by
  decide

theorem classify_shape (v : JsValue) :
    (∃ m, classify v = Except.ok m) ∨
    (∃ e, v = JsValue.error e ∧ classify v = Except.error e) := by
  cases v with
  | other d => exact Or.inl ⟨_, rfl⟩
  | error e =>
    show (∃ m, classify (JsValue.error e) = Except.ok m) ∨ _
    rw [classify]
    repeat' split
    all_goals first
      | exact Or.inr ⟨e, rfl, rfl⟩
      | exact Or.inl ⟨_, rfl⟩

/-- C6: `classify` is total — every caught value, including one that is not an
`Error` at all, yields either a category with a message or the re-raised
original error; in particular a message that starts with a brace but is not
valid JSON falls through to the verbatim fallback rather than propagating a
parse failure, and a non-JSON, non-matching string gets the verbatim
fallback too. -/
theorem classify_total :
    (∀ v : JsValue,
      (∃ m, classify v = Except.ok m) ∨
      (∃ e, v = JsValue.error e ∧ classify v = Except.error e)) ∧
    classify (JsValue.error { name := "Error", message := "\x7bnot valid json" }) =
      Except.ok "A technical issue occurred: \x7bnot valid json" ∧
    classify (JsValue.error { name := "TypeError", message := "some nonmatching failure" }) =
      Except.ok "A technical issue occurred: some nonmatching failure" ∧
    classify (JsValue.other "42") = Except.ok DEFAULT_ERROR_MESSAGE :=
  ⟨classify_shape, by decide, by decide, by decide⟩

theorem listContains_nil (l : List Char) : listContains l [] = true := by
  cases l with
  | nil => rfl
  | cons a t => simp [listContains, List.isPrefixOf]

theorem listContains_append_of_contains (l m pat : List Char)
    (h : listContains l pat = true) : listContains (l ++ m) pat = true := by
  induction l with
  | nil =>
    have : pat = [] := by
      simpa [listContains, List.isEmpty_iff] using h
    subst this
    exact listContains_nil m
  | cons a t ih =>
    rw [listContains] at h
    rcases Bool.or_eq_true_iff.mp h with h1 | h2
    · have hpre : pat <+: a :: t := List.isPrefixOf_iff_prefix.mp h1
      have hpre2 : pat <+: (a :: t) ++ m := hpre.trans (List.prefix_append _ _)
      rw [List.cons_append, listContains,
        List.isPrefixOf_iff_prefix.mpr (by simpa using hpre2), Bool.true_or]
    · rw [List.cons_append, listContains, ih h2, Bool.or_true]

theorem strStartsWith_download_message (r : String) :
    strStartsWith ("Download failed with status " ++ r) "Download failed with status"
      = true := by
  unfold strStartsWith
  have h1 : ("Download failed with status " ++ r).data
      = "Download failed with status ".data ++ r.data := rfl
  have h2 : "Download failed with status ".data
      = "Download failed with status".data ++ [' '] := by decide
  rw [h1, h2, List.append_assoc]
  exact List.isPrefixOf_iff_prefix.mpr (List.prefix_append _ _)

theorem runAnimate_completion (env : Env) (b64 : String) (d : Dimensions)
    (op0 finalOp : Operation) (qs : List ℚ)
    (hfile : env.fileRead = Except.ok (b64, d))
    (hsub : env.generateVideos (if d.width > d.height then "16:9" else "9:16")
      = Except.ok op0)
    (hpoll : pollLoop op0 env.polls = (qs, PollOutcome.finished finalOp)) :
    runAnimate env =
      match finalOp.uri with
      | none =>
        some { result := Except.error noLinkError,
               progress := 5 :: qs ++ [100], downloads := [] }
      | some downloadLink =>
        let url := downloadLink ++ "&key=" ++ env.apiKey
        let response := env.download url
        if response.ok then
          some { result := Except.ok response.blob,
                 progress := 5 :: qs ++ [100], downloads := [url] }
        else
          some { result := Except.error
                   ({ name := "Error",
                      message := "Download failed with status " ++ toString response.status
                        ++ ": " ++ response.bodyText } : JsError),
                 progress := 5 :: qs ++ [100], downloads := [url] } := by
  unfold runAnimate
  rw [hfile]
  dsimp only
  rw [hsub]
  dsimp only
  rw [hpoll]
  rfl

theorem simulatedProgress_eq_of_lt (t : ℚ) (h : t < EXPECTED_ANIMATION_DURATION_MS) :
    simulatedProgress t = 5 + 90 * (t / EXPECTED_ANIMATION_DURATION_MS) := by
  unfold simulatedProgress estimate
  apply min_eq_right
  have hpos : (0:ℚ) < EXPECTED_ANIMATION_DURATION_MS := by
    norm_num [EXPECTED_ANIMATION_DURATION_MS]
  have hx : t / EXPECTED_ANIMATION_DURATION_MS < 1 := (div_lt_one hpos).mpr h
  linarith

theorem simulatedProgress_lt_of_lt (t t' : ℚ) (h : t < t')
    (h' : t' < EXPECTED_ANIMATION_DURATION_MS) :
    simulatedProgress t < simulatedProgress t' := by
  rw [simulatedProgress_eq_of_lt t (h.trans h'), simulatedProgress_eq_of_lt t' h']
  have hpos : (0:ℚ) < EXPECTED_ANIMATION_DURATION_MS := by
    norm_num [EXPECTED_ANIMATION_DURATION_MS]
  have hd : t / EXPECTED_ANIMATION_DURATION_MS < t' / EXPECTED_ANIMATION_DURATION_MS := by
    gcongr
  linarith

theorem simulatedProgress_ge_5 (t : ℚ) (ht : 0 ≤ t) : 5 ≤ simulatedProgress t :=
  estimate_ge_5 t _ ht (by norm_num [EXPECTED_ANIMATION_DURATION_MS])

theorem simulatedProgress_le_95 (t : ℚ) : simulatedProgress t ≤ 95 :=
  estimate_le_95 t _

theorem simulatedProgress_mono (t t' : ℚ) (h : t ≤ t') :
    simulatedProgress t ≤ simulatedProgress t' :=
  estimate_mono t t' _ (by norm_num [EXPECTED_ANIMATION_DURATION_MS]) h

theorem animateImage_result_ok (env : Env) (tr : ServiceTrace) (b : Blob)
    (h : runAnimate env = some tr) (hres : tr.result = Except.ok b) :
    animateImage env = some tr := by
  unfold animateImage
  rw [h]
  dsimp only [Option.map]
  rw [hres]

theorem animateImage_result_error (env : Env) (tr : ServiceTrace) (e : JsError)
    (h : runAnimate env = some tr) (hres : tr.result = Except.error e) :
    ∃ e2, animateImage env = some { tr with result := Except.error e2 } := by
  rcases classify_shape (JsValue.error e) with ⟨m, hm⟩ | ⟨e2, _, he2⟩
  · refine ⟨{ name := "Error", message := m }, ?_⟩
    unfold animateImage
    rw [h]
    dsimp only [Option.map]
    rw [hres]
    dsimp only
    rw [hm]
  · refine ⟨e2, ?_⟩
    unfold animateImage
    rw [h]
    dsimp only [Option.map]
    rw [hres]
    dsimp only
    rw [he2]

theorem handleAnimate_ok_result (write : List HistoryItem → Option JsError)
    (env : Env) (nowId : String) (durationMs : Nat) (v : AppView)
    (tr : ServiceTrace) (b : Blob)
    (h : animateImage env = some tr) (hres : tr.result = Except.ok b) :
    ∃ hr, handleAnimate write env nowId durationMs v = some hr ∧
      hr.progressTrace = 0 :: tr.progress ++ [0] := by
  unfold handleAnimate
  rw [h]
  dsimp only [Option.map]
  rw [hres]
  exact ⟨_, rfl, rfl⟩

theorem handleAnimate_error_result (write : List HistoryItem → Option JsError)
    (env : Env) (nowId : String) (durationMs : Nat) (v : AppView)
    (tr : ServiceTrace) (e2 : JsError)
    (h : animateImage env = some tr) (hres : tr.result = Except.error e2) :
    ∃ hr, handleAnimate write env nowId durationMs v = some hr ∧
      hr.view.history = v.history ∧ hr.view.storage = v.storage ∧
      hr.progressTrace = 0 :: tr.progress ++ [0] := by
  unfold handleAnimate
  rw [h]
  dsimp only [Option.map]
  rw [hres]
  dsimp only
  cases hb : strContains (jsToLower e2.message) "requested entity was not found" with
  | true => exact ⟨_, rfl, rfl, rfl, rfl⟩
  | false => exact ⟨_, rfl, rfl, rfl, rfl⟩

/-- C9: on every run whose polling completes with `done: true`, the single
100% progress call is made before the result locator is examined — the
progress trace is `5 :: loop calls ++ [100]` and ends with 100 — so a run
that then fails with the no-download-link condition or a non-2xx download
has already reported 100%. -/
theorem completion_reports_100_first (env : Env) (b64 : String) (d : Dimensions)
    (op0 finalOp : Operation) (qs : List ℚ)
    (hfile : env.fileRead = Except.ok (b64, d))
    (hsub : env.generateVideos (if d.width > d.height then "16:9" else "9:16")
      = Except.ok op0)
    (hpoll : pollLoop op0 env.polls = (qs, PollOutcome.finished finalOp)) :
    (∃ tr, runAnimate env = some tr ∧ tr.progress = 5 :: qs ++ [100] ∧
      tr.progress.getLast? = some 100) ∧
    (finalOp.uri = none →
      (runAnimate env).map ServiceTrace.result = some (Except.error noLinkError)) ∧
    ((∃ X, finalOp.uri = some X ∧
        (env.download (X ++ "&key=" ++ env.apiKey)).ok = false) →
      ∃ e, (runAnimate env).map ServiceTrace.result = some (Except.error e) ∧
        strStartsWith e.message "Download failed with status" = true) := by
  have hmain := runAnimate_completion env b64 d op0 finalOp qs hfile hsub hpoll
  have hlast : ((5 : ℚ) :: qs ++ [100]).getLast? = some 100 := by
    rw [show (5 : ℚ) :: qs ++ [100] = ((5 : ℚ) :: qs) ++ [100] from rfl]
    exact List.getLast?_concat _
  refine ⟨?_, ?_, ?_⟩
  · cases huri : finalOp.uri with
    | none =>
      rw [huri] at hmain
      exact ⟨_, hmain, rfl, hlast⟩
    | some X =>
      rw [huri] at hmain
      dsimp only at hmain
      cases hok : (env.download (X ++ "&key=" ++ env.apiKey)).ok with
      | true =>
        rw [hok] at hmain
        simp only [if_true] at hmain
        exact ⟨_, hmain, rfl, hlast⟩
      | false =>
        rw [hok] at hmain
        simp only [Bool.false_eq_true, if_false] at hmain
        exact ⟨_, hmain, rfl, hlast⟩
  · intro huri
    rw [huri] at hmain
    rw [hmain]
    rfl
  · rintro ⟨X, hX, hok⟩
    rw [hX] at hmain
    dsimp only at hmain
    rw [hok] at hmain
    simp only [Bool.false_eq_true, if_false] at hmain
    refine ⟨_, by rw [hmain]; rfl, ?_⟩
    show strStartsWith ("Download failed with status "
      ++ toString (env.download (X ++ "&key=" ++ env.apiKey)).status
      ++ ": " ++ (env.download (X ++ "&key=" ++ env.apiKey)).bodyText)
      "Download failed with status" = true
    rw [String.append_assoc, String.append_assoc]
    exact strStartsWith_download_message _

/-- Witness for C9 at the concrete environment `env500` (one completing poll,
download rejected with status 500). -/
theorem completion_reports_100_first_witness :
    (∃ tr, runAnimate env500 = some tr ∧
      tr.progress = 5 :: [simulatedProgress 10000] ++ [100] ∧
      tr.progress.getLast? = some 100) ∧
    ((doneOp "https://video.example/x").uri = none →
      (runAnimate env500).map ServiceTrace.result = some (Except.error noLinkError)) ∧
    ((∃ X, (doneOp "https://video.example/x").uri = some X ∧
        (env500.download (X ++ "&key=" ++ env500.apiKey)).ok = false) →
      ∃ e, (runAnimate env500).map ServiceTrace.result = some (Except.error e) ∧
        strStartsWith e.message "Download failed with status" = true) :=
  completion_reports_100_first env500 "img64" { width := 1920, height := 1080 }
    pendingOp (doneOp "https://video.example/x") [simulatedProgress 10000]
    rfl rfl rfl

/-- C3 counterexample: in `env3` the status check (`getVideosOperation`)
returns `done: false` three times and then `done: true`, yet the run makes
four intermediate progress calls between the initial 5% call and the final
100% call — one per status check, including the check that returned done —
not three. -/
theorem three_false_polls_counterexample :
    (env3.polls.map fun p => p.2.toOption.map Operation.done)
      = [some false, some false, some false, some true] ∧
    (runAnimate env3).map ServiceTrace.progress
      = some (5 :: [simulatedProgress 10000, simulatedProgress 20000,
                    simulatedProgress 30000, simulatedProgress 40000] ++ [100]) ∧
    [simulatedProgress 10000, simulatedProgress 20000,
      simulatedProgress 30000, simulatedProgress 40000].length ≠ 3 :=
  ⟨rfl, rfl, by decide⟩

/-- C3 (amended): a run whose status checks return `done: false` three times
and then `done: true` with locator `X` makes exactly **four** intermediate
progress calls — one per status check, including the completing one —
monotonically increasing (for strictly increasing elapsed times within the
expected duration), followed by the single final 100% call, and issues
exactly one download request, to `X` with the credential appended. -/
theorem four_polls_four_progress_calls (t1 t2 t3 t4 : ℚ)
    (X key img mdl body : String) (d : Dimensions) (b : Blob)
    (h1 : 0 ≤ t1) (h12 : t1 < t2) (h23 : t2 < t3) (h34 : t3 < t4)
    (h4 : t4 < EXPECTED_ANIMATION_DURATION_MS) :
    animateImage
      { apiKey := key, modelName := mdl, fileRead := Except.ok (img, d),
        generateVideos := fun _ => Except.ok { done := false, uri := none },
        polls := [(t1, Except.ok { done := false, uri := none }),
                  (t2, Except.ok { done := false, uri := none }),
                  (t3, Except.ok { done := false, uri := none }),
                  (t4, Except.ok { done := true, uri := some X })],
        download := fun _ => { ok := true, status := 200, bodyText := body, blob := b } }
      = some { result := Except.ok b,
               progress := 5 :: [simulatedProgress t1, simulatedProgress t2,
                                 simulatedProgress t3, simulatedProgress t4] ++ [100],
               downloads := [X ++ "&key=" ++ key] } ∧
    [simulatedProgress t1, simulatedProgress t2, simulatedProgress t3,
      simulatedProgress t4].length = 4 ∧
    List.Chain' (· < ·) [simulatedProgress t1, simulatedProgress t2,
      simulatedProgress t3, simulatedProgress t4] ∧
    List.Chain' (· ≤ ·) (5 :: [simulatedProgress t1, simulatedProgress t2,
      simulatedProgress t3, simulatedProgress t4] ++ [100]) := by
  refine ⟨rfl, rfl, ?_, ?_⟩
  · simp only [List.chain'_cons, List.chain'_singleton, and_true]
    exact ⟨simulatedProgress_lt_of_lt t1 t2 h12 (h23.trans (h34.trans h4)),
      simulatedProgress_lt_of_lt t2 t3 h23 (h34.trans h4),
      simulatedProgress_lt_of_lt t3 t4 h34 h4⟩
  · simp only [List.cons_append, List.nil_append, List.chain'_cons,
      List.chain'_singleton, and_true]
    refine ⟨simulatedProgress_ge_5 t1 h1,
      simulatedProgress_mono t1 t2 h12.le,
      simulatedProgress_mono t2 t3 h23.le,
      simulatedProgress_mono t3 t4 h34.le,
      (simulatedProgress_le_95 t4).trans (by norm_num)⟩

/-- Witness for the amended C3 at `env3` (polls at 10s, 20s, 30s, 40s). -/
theorem four_polls_four_progress_calls_witness :
    animateImage env3
      = some { result := Except.ok sampleBlob,
               progress := 5 :: [simulatedProgress 10000, simulatedProgress 20000,
                                 simulatedProgress 30000, simulatedProgress 40000] ++ [100],
               downloads := ["https://video.example/x&key=KEY"] } ∧
    List.Chain' (· < ·) [simulatedProgress 10000, simulatedProgress 20000,
      simulatedProgress 30000, simulatedProgress 40000] ∧
    List.Chain' (· ≤ ·) (5 :: [simulatedProgress 10000, simulatedProgress 20000,
      simulatedProgress 30000, simulatedProgress 40000] ++ [100]) := by
  have h := four_polls_four_progress_calls 10000 20000 30000 40000
    "https://video.example/x" "KEY" "img64" "veo-3.1-fast-generate-preview" ""
    { width := 1920, height := 1080 } sampleBlob (by norm_num) (by norm_num)
    (by norm_num) (by norm_num) (by norm_num [EXPECTED_ANIMATION_DURATION_MS])
  exact ⟨h.1, h.2.2.1, h.2.2.2⟩

/-- C7: a run that reaches the artifact download and gets a non-2xx response
with status 500 fails with the download-error sentinel carrying status 500
(its message is `Download failed with status 500: <body>`, which contains
"500"), and no history entry is written for that run — the caller's history
and its persisted storage are unchanged. -/
theorem download_500_fails_no_history (env : Env)
    (write : List HistoryItem → Option JsError) (nowId : String)
    (durationMs : Nat) (v : AppView) (b64 : String) (d : Dimensions)
    (op0 finalOp : Operation) (qs : List ℚ) (X : String)
    (hfile : env.fileRead = Except.ok (b64, d))
    (hsub : env.generateVideos (if d.width > d.height then "16:9" else "9:16")
      = Except.ok op0)
    (hpoll : pollLoop op0 env.polls = (qs, PollOutcome.finished finalOp))
    (huri : finalOp.uri = some X)
    (hdl : ∀ url, (env.download url).ok = false ∧ (env.download url).status = 500) :
    (∃ body, (runAnimate env).map ServiceTrace.result
        = some (Except.error
            { name := "Error",
              message := "Download failed with status 500: " ++ body }) ∧
      strContains ("Download failed with status 500: " ++ body) "500" = true) ∧
    (∃ hr, handleAnimate write env nowId durationMs v = some hr ∧
      hr.view.history = v.history ∧ hr.view.storage = v.storage) := by
  have hmain := runAnimate_completion env b64 d op0 finalOp qs hfile hsub hpoll
  rw [huri] at hmain
  dsimp only at hmain
  have hok := (hdl (X ++ "&key=" ++ env.apiKey)).1
  have hst := (hdl (X ++ "&key=" ++ env.apiKey)).2
  rw [hok] at hmain
  simp only [Bool.false_eq_true, if_false] at hmain
  rw [hst] at hmain
  constructor
  · refine ⟨(env.download (X ++ "&key=" ++ env.apiKey)).bodyText, ?_, ?_⟩
    · rw [hmain]
      rfl
    · show listContains ("Download failed with status 500: "
        ++ (env.download (X ++ "&key=" ++ env.apiKey)).bodyText).data "500".data = true
      have hsplit : ("Download failed with status 500: "
          ++ (env.download (X ++ "&key=" ++ env.apiKey)).bodyText).data
          = "Download failed with status 500: ".data
            ++ (env.download (X ++ "&key=" ++ env.apiKey)).bodyText.data := rfl
      rw [hsplit]
      exact listContains_append_of_contains _ _ _ (by decide)
  · obtain ⟨e2, hanim⟩ := animateImage_result_error env _ _ hmain rfl
    obtain ⟨hr, hh, h1, h2, _⟩ :=
      handleAnimate_error_result write env nowId durationMs v _ e2 hanim rfl
    exact ⟨hr, hh, h1, h2⟩

/-- Witness for C7 at the concrete environment `env500`. -/
theorem download_500_fails_no_history_witness :
    (∃ body, (runAnimate env500).map ServiceTrace.result
        = some (Except.error
            { name := "Error",
              message := "Download failed with status 500: " ++ body }) ∧
      strContains ("Download failed with status 500: " ++ body) "500" = true) ∧
    (∃ hr, handleAnimate (fun _ => none) env500 "id0" 45000 initialView = some hr ∧
      hr.view.history = initialView.history ∧ hr.view.storage = initialView.storage) :=
  download_500_fails_no_history env500 (fun _ => none) "id0" 45000 initialView
    "img64" { width := 1920, height := 1080 } pendingOp
    (doneOp "https://video.example/x") [simulatedProgress 10000]
    "https://video.example/x" rfl rfl rfl rfl (fun _ => ⟨rfl, rfl⟩)

theorem pollLoop_progress_shape (op : Operation)
    (polls : List (ℚ × Except JsError Operation)) :
    ∃ ts : List ℚ, (pollLoop op polls).1 = ts.map simulatedProgress ∧
      ts <+: polls.map Prod.fst := by
  induction polls generalizing op with
  | nil =>
    refine ⟨[], ?_, List.nil_prefix⟩
    by_cases hd : op.done <;> simp [pollLoop, hd]
  | cons p rest ih =>
    by_cases hd : op.done
    · exact ⟨[], by unfold pollLoop; simp [hd], List.nil_prefix⟩
    · obtain ⟨t, res⟩ := p
      cases res with
      | error e => exact ⟨[], by unfold pollLoop; simp [hd], List.nil_prefix⟩
      | ok op2 =>
        obtain ⟨ts, h1, h2⟩ := ih op2
        refine ⟨t :: ts, ?_, ?_⟩
        · unfold pollLoop
          simp [hd, h1]
        · rw [List.map_cons]
          exact List.cons_prefix_cons.mpr ⟨rfl, h2⟩

theorem runAnimate_progress_shape (env : Env) (tr : ServiceTrace)
    (h : runAnimate env = some tr) :
    tr.progress = [5] ∨
    ∃ ts : List ℚ, ts <+: env.polls.map Prod.fst ∧
      (tr.progress = 5 :: ts.map simulatedProgress ∨
       tr.progress = 5 :: ts.map simulatedProgress ++ [100]) := by
  unfold runAnimate at h
  split at h
  · obtain rfl := Option.some.inj h
    exact Or.inl rfl
  · dsimp only at h
    split at h
    · obtain rfl := Option.some.inj h
      exact Or.inl rfl
    · rename_i operation _
      split at h
      · exact absurd h (by simp)
      · rename_i qs e hpoll
        obtain ⟨ts, hts, hpre⟩ := pollLoop_progress_shape operation env.polls
        rw [hpoll] at hts
        dsimp only at hts
        obtain rfl := Option.some.inj h
        exact Or.inr ⟨ts, hpre, Or.inl (by dsimp only; rw [hts])⟩
      · rename_i qs finalOp hpoll
        obtain ⟨ts, hts, hpre⟩ := pollLoop_progress_shape operation env.polls
        rw [hpoll] at hts
        dsimp only at hts
        refine Or.inr ⟨ts, hpre, Or.inr ?_⟩
        split at h
        · obtain rfl := Option.some.inj h
          dsimp only
          rw [hts]
        · split at h <;> obtain rfl := Option.some.inj h <;> (dsimp only; rw [hts])

theorem animateImage_progress (env : Env) (tr : ServiceTrace)
    (h : runAnimate env = some tr) :
    ∃ tr2, animateImage env = some tr2 ∧ tr2.progress = tr.progress := by
  cases hres : tr.result with
  | ok b => exact ⟨tr, animateImage_result_ok env tr b h hres, rfl⟩
  | error e =>
    obtain ⟨e2, h2⟩ := animateImage_result_error env tr e h hres
    exact ⟨_, h2, rfl⟩

theorem handleAnimate_trace (write : List HistoryItem → Option JsError)
    (env : Env) (nowId : String) (durationMs : Nat) (v : AppView)
    (tr : ServiceTrace) (h : runAnimate env = some tr) :
    ∃ hr, handleAnimate write env nowId durationMs v = some hr ∧
      hr.progressTrace = 0 :: tr.progress ++ [0] := by
  obtain ⟨tr2, h2, hp⟩ := animateImage_progress env tr h
  cases hres : tr2.result with
  | ok b =>
    obtain ⟨hr, hh, ht⟩ := handleAnimate_ok_result write env nowId durationMs v tr2 b h2 hres
    exact ⟨hr, hh, by rw [ht, hp]⟩
  | error e2 =>
    obtain ⟨hr, hh, _, _, ht⟩ :=
      handleAnimate_error_result write env nowId durationMs v tr2 e2 h2 hres
    exact ⟨hr, hh, by rw [ht, hp]⟩

theorem mid_progress_facts (ts : List ℚ) (h0 : ∀ t ∈ ts, (0:ℚ) ≤ t)
    (hm : List.Chain' (· ≤ ·) ts) :
    (List.Chain' (· ≤ ·) (5 :: ts.map simulatedProgress) ∧
      ∀ q ∈ (5:ℚ) :: ts.map simulatedProgress, 0 ≤ q ∧ q ≤ 100) ∧
    (List.Chain' (· ≤ ·) (5 :: ts.map simulatedProgress ++ [100]) ∧
      ∀ q ∈ (5:ℚ) :: ts.map simulatedProgress ++ [100], 0 ≤ q ∧ q ≤ 100) := by
  have hmem : ∀ q ∈ ts.map simulatedProgress, 0 ≤ q ∧ q ≤ 100 := by
    intro q hq
    obtain ⟨t, ht, rfl⟩ := List.mem_map.mp hq
    have h5 := simulatedProgress_ge_5 t (h0 t ht)
    have h95 := simulatedProgress_le_95 t
    constructor <;> linarith
  have hchain : List.Chain' (· ≤ ·) (5 :: ts.map simulatedProgress) := by
    rw [List.chain'_cons']
    constructor
    · intro y hy
      cases ts with
      | nil => simp at hy
      | cons a t =>
        simp only [List.map_cons, List.head?_cons, Option.mem_def,
          Option.some.injEq] at hy
        rw [← hy]
        exact simulatedProgress_ge_5 a (h0 a (by simp))
    · rw [List.chain'_map]
      exact hm.imp fun a b hab => simulatedProgress_mono a b hab
  have hb1 : ∀ q ∈ (5:ℚ) :: ts.map simulatedProgress, 0 ≤ q ∧ q ≤ 100 := by
    intro q hq
    rcases List.mem_cons.mp hq with rfl | hq2
    · norm_num
    · exact hmem q hq2
  refine ⟨⟨hchain, hb1⟩, ?_, ?_⟩
  · rw [show (5:ℚ) :: ts.map simulatedProgress ++ [100]
        = ((5:ℚ) :: ts.map simulatedProgress) ++ [100] from rfl, List.chain'_append]
    refine ⟨hchain, List.chain'_singleton _, ?_⟩
    intro x hx y hy
    simp only [List.head?_cons, Option.mem_def, Option.some.injEq] at hy
    obtain ⟨hne, rfl⟩ := List.mem_getLast?_eq_getLast hx
    have hxmem : ((5:ℚ) :: ts.map simulatedProgress).getLast hne
        ∈ (5:ℚ) :: ts.map simulatedProgress := List.getLast_mem hne
    rw [← hy]
    exact (hb1 _ hxmem).2
  · intro q hq
    rw [show (5:ℚ) :: ts.map simulatedProgress ++ [100]
        = ((5:ℚ) :: ts.map simulatedProgress) ++ [100] from rfl] at hq
    rcases List.mem_append.mp hq with hq2 | hq2
    · exact hb1 q hq2
    · simp only [List.mem_singleton] at hq2
      subst hq2
      norm_num

/-- C8 counterexample: the run in `env8` (one status check at elapsed time
10 s) reports the progress value `simulatedProgress 10000 = 25/2 = 12.5`
through `setProgress`, which is not an integer — the reported values are not
all integers. -/
theorem progress_not_integer_counterexample :
    (handleAnimate (fun _ => none) env8 "id0" 45000 initialView).map
        HandleResult.progressTrace
      = some [0, 5, simulatedProgress 10000, 100, 0] ∧
    simulatedProgress 10000 = 25 / 2 ∧
    ¬ ∃ n : ℤ, (25 : ℚ) / 2 = (n : ℚ) := by
  refine ⟨rfl, ?_, ?_⟩
  · norm_num [simulatedProgress, estimate, EXPECTED_ANIMATION_DURATION_MS, min_def]
  · rintro ⟨n, hn⟩
    have h2 : (25 : ℚ) = 2 * (n : ℚ) := by linarith
    have h3 : (25 : ℤ) = 2 * n := by exact_mod_cast h2
    omega

/-- C8 (amended): for a run whose poll times are non-negative and
non-decreasing, every value passed to `setProgress` is a rational (not
necessarily integral) value in `[0, 100]`; the run's trace is
`0 :: mid ++ [0]` — reset to 0 at run start and again at run end — and the
part between the two resets (`mid`, the service's `onProgress` values) is
monotonically non-decreasing. -/
theorem progress_trace_bounded_monotone (env : Env)
    (write : List HistoryItem → Option JsError) (nowId : String)
    (durationMs : Nat) (v : AppView) (tr : ServiceTrace)
    (hrun : runAnimate env = some tr)
    (hts0 : ∀ t ∈ env.polls.map Prod.fst, (0:ℚ) ≤ t)
    (htsm : List.Chain' (· ≤ ·) (env.polls.map Prod.fst)) :
    ∃ hr, handleAnimate write env nowId durationMs v = some hr ∧
      hr.progressTrace = 0 :: tr.progress ++ [0] ∧
      List.Chain' (· ≤ ·) tr.progress ∧
      (∀ q ∈ hr.progressTrace, 0 ≤ q ∧ q ≤ 100) ∧
      hr.progressTrace.head? = some 0 ∧
      hr.progressTrace.getLast? = some 0 := by
  obtain ⟨hr, hh, htr⟩ := handleAnimate_trace write env nowId durationMs v tr hrun
  have hmid : List.Chain' (· ≤ ·) tr.progress ∧
      ∀ q ∈ tr.progress, 0 ≤ q ∧ q ≤ 100 := by
    rcases runAnimate_progress_shape env tr hrun with h5 | ⟨ts, hpre, hsh⟩
    · rw [h5]
      exact ⟨List.chain'_singleton _, by intro q hq; simp at hq; subst hq; norm_num⟩
    · have h0 : ∀ t ∈ ts, (0:ℚ) ≤ t := fun t ht => hts0 t (hpre.subset ht)
      have hm : List.Chain' (· ≤ ·) ts := htsm.prefix hpre
      obtain ⟨⟨hc1, hb1⟩, hc2, hb2⟩ := mid_progress_facts ts h0 hm
      rcases hsh with hsh | hsh <;> rw [hsh]
      · exact ⟨hc1, hb1⟩
      · exact ⟨hc2, hb2⟩
  refine ⟨hr, hh, htr, hmid.1, ?_, ?_, ?_⟩
  · intro q hq
    rw [htr] at hq
    rcases List.mem_cons.mp hq with rfl | hq2
    · norm_num
    · rcases List.mem_append.mp hq2 with hq3 | hq3
      · exact hmid.2 q hq3
      · simp only [List.mem_singleton] at hq3
        subst hq3
        norm_num
  · rw [htr]
    rfl
  · rw [htr, show (0:ℚ) :: tr.progress ++ [0] = ((0:ℚ) :: tr.progress) ++ [0] from rfl]
    exact List.getLast?_concat _

/-- Witness for the amended C8 at `env8`: the trace is
`[0, 5, simulatedProgress 10000, 100, 0]`, monotone between the resets and
within bounds. -/
theorem progress_trace_bounded_monotone_witness :
    ∃ hr, handleAnimate (fun _ => none) env8 "id0" 45000 initialView = some hr ∧
      hr.progressTrace = 0 :: trace8.progress ++ [0] ∧
      List.Chain' (· ≤ ·) trace8.progress ∧
      (∀ q ∈ hr.progressTrace, 0 ≤ q ∧ q ≤ 100) ∧
      hr.progressTrace.head? = some 0 ∧
      hr.progressTrace.getLast? = some 0 :=
  progress_trace_bounded_monotone env8 (fun _ => none) "id0" 45000 initialView
    trace8
    rfl
    (by
      intro t ht
      rw [show env8.polls.map Prod.fst = [(10000 : ℚ)] from rfl] at ht
      simp only [List.mem_singleton] at ht
      subst ht
      norm_num)
    (by
      rw [show env8.polls.map Prod.fst = [(10000 : ℚ)] from rfl]
      exact List.chain'_singleton _)
